import Mathlib

/-!
# AI-Presentation-Agent — verification of the generation pipeline spec

Shallow embedding of the parts of the repository that the claims C1–C10
talk about:

* `src/unnamed/part_000` — the pipeline design document.  Its `with_retry`
  wrapper and `switch_to_architect` are given with full bodies and are
  embedded from that source; `create_slide_framework`, `generate_all_slides`
  and the backend phase endpoint appear only as stubbed declarations (`...`),
  so those operations are modelled from the spec (each such definition says
  so in its doc comment).
* `src/unnamed/part_002` — the slide editor page (`convertToDetailedSlide`).
* `src/unnamed/part_003` — the plan editor page (`removeSlide`, `addSlide`,
  `moveSlide`).
* `src/frontend/src/pages/GenerationPage.tsx` — the generation monitor page
  (`filtered`, `handleDelete`, `handleAddSlide`).

Machine integers do not occur on the paths modelled here; JavaScript numbers
that are used as list indices/counters are modelled as `Nat`/`Int`, and the
float fields of `RetryConfig` (1.0, 2.0, 30.0) only ever take small integral
values on which binary floating point is exact, so they are modelled as `Nat`.
-/

namespace PresentationAgent

/-! ## Plan editor page (`src/unnamed/part_003`)

TypeScript `Slide` and `Presentation` from `src/frontend/src/types/index.ts`.
Optional/absent string fields are modelled as `""` (both `undefined` and the
empty string are falsy for the `||` fallbacks the code uses). -/

structure Slide where
  id : String
  title : String
  content : String
  type : String
deriving Inhabited, DecidableEq, Repr

structure Theme where
  primaryColor : String
  accentColor : String
deriving Inhabited, DecidableEq, Repr

structure Presentation where
  title : String
  slides : List Slide
  theme : Theme
deriving Inhabited, DecidableEq, Repr

/-- `removeSlide` from `src/unnamed/part_003` lines 58–67: if the
presentation has at most one slide the state is left unchanged (only an
alert is shown); otherwise the slides whose `id` equals the argument are
filtered out. -/
def removeSlide (id : String) (p : Presentation) : Presentation :=
  if p.slides.length ≤ 1 then p
  else { p with slides := p.slides.filter (fun s => s.id != id) }

/-- `addSlide` from `src/unnamed/part_003` lines 69–83: appends a single
fresh slide whose id is `slide_${Date.now()}`; the current clock tick is the
`now` parameter. -/
def addSlide (now : Nat) (p : Presentation) : Presentation :=
  { p with slides := p.slides ++ [⟨"slide_" ++ toString now, "", "", "content"⟩] }

inductive MoveDir where
  | up
  | down
deriving DecidableEq, Repr

/-- `moveSlide` from `src/unnamed/part_003` lines 85–92: computes the target
index (`index - 1` for `'up'`, `index + 1` for `'down'`, as a mathematical
integer, since JavaScript indices can go to `-1`), and when the target is in
bounds swaps the two array slots, leaving the state untouched otherwise. -/
def moveSlide (index : Nat) (dir : MoveDir) (p : Presentation) : Presentation :=
  let slides := p.slides
  let target : Int := match dir with
    | .up => (index : Int) - 1
    | .down => (index : Int) + 1
  if 0 ≤ target ∧ target < slides.length then
    let t := target.toNat
    { p with slides := (slides.set index (slides.getD t default)).set t (slides.getD index default) }
  else p

/-! ## Generation monitor page (`src/frontend/src/pages/GenerationPage.tsx`)

`SlideGenerationStatus` from `src/frontend/src/types/index.ts`; the `status`
field is one of the four string literals `queued | running | done | failed`
and is modelled as a `String` exactly because the page manipulates it as a
string (building a `Set<string>` of allowed statuses). -/

structure GenSlide where
  id : String
  title : String
  sectionName : String
  status : String
  progress : Int
deriving Inhabited, DecidableEq, Repr

/-- `handleDelete` from `GenerationPage.tsx` lines 201–203: drops every slide
with the given id from the local list. -/
def handleDelete (id : String) (slides : List GenSlide) : List GenSlide :=
  slides.filter (fun s => s.id != id)

/-- Model of JavaScript `Number(string)` restricted to the id strings this
page produces: a string of decimal digits parses to its value, anything else
(e.g. `"slide_3"` or `"NaN"`) gives `none`, standing for `NaN`.  (JavaScript
additionally maps `""` to `0`; no id on this page is empty.)  Defined by
structural recursion over the character list so that concrete instances
compute inside the kernel. -/
def jsNumber (s : String) : Option Nat :=
  if s.data ≠ [] ∧ s.data.all (fun c => c.isDigit) then
    some (s.data.foldl (fun n c => n * 10 + (c.toNat - '0'.toNat)) 0)
  else none

/-- The id `handleAddSlide` computes:
`String(Math.max(0, ...slides.map(s => Number(s.id))) + 1)`.
`Math.max` over a set containing `NaN` is `NaN`, and `String(NaN + 1)` is
`"NaN"`, hence the `Option` plumbing. -/
def nextIdOf (slides : List GenSlide) : String :=
  match slides.mapM (fun s => jsNumber s.id) with
  | none => "NaN"
  | some ns => toString (ns.foldl max 0 + 1)

/-- `handleAddSlide` from `GenerationPage.tsx` lines 206–212: appends one new
queued slide with the computed id. -/
def handleAddSlide (slides : List GenSlide) : List GenSlide :=
  slides ++ [⟨nextIdOf slides, "新增页面 " ++ nextIdOf slides, "新建", "queued", 0⟩]

structure Filters where
  queued : Bool
  running : Bool
  done : Bool
deriving DecidableEq, Repr

/-- The `allowed` set built inside `filtered` (`GenerationPage.tsx` lines
151–156): only the three flags `queued`, `running`, `done` contribute. -/
def allowedStatuses (f : Filters) : List String :=
  (if f.queued then ["queued"] else []) ++
  (if f.running then ["running"] else []) ++
  (if f.done then ["done"] else [])

/-- Model of JavaScript `String.prototype.includes`. -/
def strIncludes (hay needle : String) : Bool :=
  (List.range (hay.length + 1)).any (fun i => needle.isPrefixOf (hay.drop i))

/-- `filtered` from `GenerationPage.tsx` lines 150–160: keeps a slide when
its status is in the allowed set and, when the query is non-empty, its
lower-cased title contains the lower-cased query. -/
def filteredSlides (f : Filters) (query : String) (slides : List GenSlide) : List GenSlide :=
  slides.filter (fun s =>
    (allowedStatuses f).contains s.status &&
    (query == "" || strIncludes s.title.toLower query.toLower))

/-! ## Slide editor page (`src/unnamed/part_002`) -/

/-- The runtime value of `slide.content` as `convertToDetailedSlide`
discriminates it: a string, an array of strings (the code forces non-string
items through `String(item)`, so each element is modelled as the resulting
string), or anything else — absent/`undefined` — for which both branches are
skipped. -/
inductive JsContent where
  | str (s : String)
  | arr (l : List String)
  | undef
deriving Inhabited, DecidableEq, Repr

/-- The input slide object of `convertToDetailedSlide`; `id`, `title` and
`notes` are `""` when missing (matching the `||` / `'' `fallbacks). -/
structure ApiSlide where
  id : String
  title : String
  notes : String
  content : JsContent
deriving Inhabited, Repr

structure SlideContentItem where
  id : String
  label : String
  value : String
deriving Inhabited, DecidableEq, Repr

structure DetailedSlide where
  id : String
  title : String
  subtitle : String
  layout : String
  content : List SlideContentItem
deriving Inhabited, Repr

/-- The content items `convertToDetailedSlide` parses before the default is
substituted (`src/unnamed/part_002` lines 22–37): a string is split on
`\n`, `•`, `·`, pieces that trim to nothing are dropped, and the rest become
items with trimmed values; an array maps element-wise; anything else yields
no items. -/
def contentItemsOf (index : Nat) : JsContent → List SlideContentItem
  | .str s =>
      (((s.split (fun c => c == '\n' || c == '•' || c == '·')).filter
          (fun l => l.trim != "")).enum).map
        (fun p => ⟨"c" ++ toString index ++ "_" ++ toString p.1,
                   "要点 " ++ toString (p.1 + 1), p.2.trim⟩)
  | .arr l =>
      (l.enum).map
        (fun p => ⟨"c" ++ toString index ++ "_" ++ toString p.1,
                   "要点 " ++ toString (p.1 + 1), p.2⟩)
  | .undef => []

/-- `convertToDetailedSlide` from `src/unnamed/part_002` lines 20–48. -/
def convertToDetailedSlide (slide : ApiSlide) (index : Nat) : DetailedSlide :=
  let contentItems := contentItemsOf index slide.content
  { id := if slide.id == "" then "slide_" ++ toString (index + 1) else slide.id
    title := if slide.title == "" then "幻灯片 " ++ toString (index + 1) else slide.title
    subtitle := slide.notes
    layout := "standard"
    content :=
      if contentItems.length > 0 then contentItems
      else [⟨"c" ++ toString index ++ "_0", "要点 1", "在此输入内容"⟩] }

/-! ## Role switch (`src/unnamed/part_000` lines 750–764)

`switch_to_architect` replaces the agent's system prompt with
`Architect_prompt.md` text followed by the agent's tool definitions, and
touches nothing else — in particular the conversation history (the
transcript's turns) is kept as is.  The agent state is modelled by the
fields the method can reach. -/

structure ChatTurn where
  role : String
  content : String
deriving Inhabited, DecidableEq, Repr

structure Agent where
  system_prompt : String
  chat_history : List ChatTurn
  tool_definitions : String
deriving Inhabited, Repr

/-- `_build_architect_system_prompt`: `f"{self.architect_prompt}\n\n{tool_definitions}"`. -/
def build_architect_system_prompt (architect_prompt : String) (a : Agent) : String :=
  architect_prompt ++ "\n\n" ++ a.tool_definitions

/-- `switch_to_architect`: the in-place mutation
`agent.system_prompt = self._build_architect_system_prompt()` as a state
transformer. -/
def switch_to_architect (architect_prompt : String) (a : Agent) : Agent :=
  { a with system_prompt := build_architect_system_prompt architect_prompt a }

/-! ## Retry wrapper (`src/unnamed/part_000` lines 899–931)

`RetryConfig` and `with_retry` are given in full in the design document, so
they are embedded from that source.  The float fields take only the values
1.0, 2.0, 30.0 and powers of two below the cap, all exact in binary floating
point; they are modelled as `Nat` seconds.  The awaited callable is modelled
by an oracle `f : Nat → Except ε α` giving the outcome of the k-th call, and
the wrapper's observable behaviour is collected in a `RetryLog`: the value
returned (or exception propagated), the `asyncio.sleep` delays performed in
order, and the number of calls made.  `result = none` models the corner case
`max_retries = 0`, where the `for` loop body never runs and the Python
function falls off the end returning `None`. -/

structure RetryConfig where
  max_retries : Nat := 3
  base_delay : Nat := 1
  max_delay : Nat := 30
  exponential_base : Nat := 2
deriving Repr

structure RetryLog (ε α : Type) where
  result : Option (Except ε α)
  delays : List Nat
  calls : Nat
deriving Repr

/-- The `for attempt in range(config.max_retries)` loop of `with_retry`,
with `i` the current value of `attempt` and `n` the iterations left
(`i + n = max_retries`), so `n = 1` exactly when
`attempt == config.max_retries - 1`, the branch that re-raises (no
`on_failure` is installed by the engine).  On a non-final failure the loop
sleeps `min(base_delay * exponential_base ** attempt, max_delay)` and goes
round again. -/
def withRetryLoop (cfg : RetryConfig) (f : Nat → Except ε α) : Nat → Nat → RetryLog ε α
  | _, 0 => ⟨none, [], 0⟩
  | i, n + 1 =>
    match f i with
    | .ok a => ⟨some (.ok a), [], 1⟩
    | .error e =>
      if n = 0 then ⟨some (.error e), [], 1⟩
      else
        let d := min (cfg.base_delay * cfg.exponential_base ^ i) cfg.max_delay
        let rest := withRetryLoop cfg f (i + 1) n
        ⟨rest.result, d :: rest.delays, rest.calls + 1⟩

/-- `with_retry(func, config)` from `src/unnamed/part_000` lines 905–931. -/
def with_retry (cfg : RetryConfig) (f : Nat → Except ε α) : RetryLog ε α :=
  withRetryLoop cfg f 0 cfg.max_retries

/-! ## Slide generation engine (spec-modelled)

`create_slide_framework` and `generate_all_slides` are declared in
`src/unnamed/part_000` (lines 818–839) with `...` bodies only, and the
backend implementing them is not under `src/`; the definitions below are
therefore modelled from the spec (§4.5, §5).  Per-slide outcomes are an
oracle `succeeds : slideId → Bool` saying whether that slide's designer run
eventually succeeds within its retry budget. -/

structure SlideSpec where
  id : String
  title : String
  contentBrief : String
deriving Inhabited, DecidableEq, Repr

structure Plan where
  title : String
  slides : List SlideSpec
deriving Inhabited, DecidableEq, Repr

inductive EntryStatus where
  | pending
  | running
  | done
  | failed
deriving DecidableEq, Repr

structure ManifestEntry where
  slideId : String
  status : EntryStatus
  attempts : Nat
deriving DecidableEq, Repr

structure ManifestSummary where
  done : Nat
  failed : Nat
deriving DecidableEq, Repr

/-- Modelled from the spec: `create_slide_framework` / the Plan-expansion
step of `generateAll` (its body in `src/unnamed/part_000` is elided).  "On
entry, create one ManifestEntry per SlideSpec", "deterministically in Plan
order before any generation starts", each starting `pending` with zero
attempts. -/
def expandPlan (plan : Plan) : List ManifestEntry :=
  plan.slides.map (fun s => ⟨s.id, .pending, 0⟩)

/-- Modelled from the spec: the terminal state of one entry after its
designer run — `done` on eventual success, `failed` once the retry budget is
exhausted; the failure never propagates. -/
def runEntry (succeeds : String → Bool) (e : ManifestEntry) : ManifestEntry :=
  if succeeds e.slideId then { e with status := .done } else { e with status := .failed }

/-- Modelled from the spec: `generate_all_slides` (its body in
`src/unnamed/part_000` is elided).  The Manifest is created first, in Plan
order; every entry is then driven to a terminal state independently of the
others (the concurrency limit affects scheduling only, not the outcome), and
the call returns a `{done, failed}` summary instead of raising. -/
def generateAll (_limit : Nat) (succeeds : String → Bool) (plan : Plan) :
    ManifestSummary × List ManifestEntry :=
  let manifest := expandPlan plan
  let finalManifest := manifest.map (runEntry succeeds)
  (⟨finalManifest.countP (fun e => e.status == .done),
    finalManifest.countP (fun e => e.status == .failed)⟩,
   finalManifest)

/-! ## Admission gate (spec-modelled)

The design document prescribes an `asyncio.Semaphore` driven by
`SLIDE_GENERATION_CONCURRENCY` (0 or unset = unbounded), but the code
carrying it is not under `src/`; the gate is modelled from the spec as a
transition system over the number of active designer runs.  A trace is the
sequence of granted acquires and releases; a semaphore never grants an
acquire while the limit is reached, so such a step is simply unavailable
(`none`). -/

inductive GateEvent where
  | acquire
  | release
deriving DecidableEq, Repr

/-- Modelled from the spec: one gate step.  `limit = 0` means unbounded;
otherwise an acquire is only granted while `active < limit`.  A release
decrements the active count. -/
def gateStep (limit active : Nat) : GateEvent → Option Nat
  | .acquire => if limit = 0 ∨ active < limit then some (active + 1) else none
  | .release => some (active - 1)

/-- Modelled from the spec: run a trace of gate events from an active count,
collecting the active count after every event; `none` when the trace
contains an acquire the semaphore would not grant. -/
def gateStates (limit : Nat) : Nat → List GateEvent → Option (List Nat)
  | _, [] => some []
  | active, ev :: evs =>
    (gateStep limit active ev).bind
      (fun a => (gateStates limit a evs).map (fun l => a :: l))

/-- The sequence of active counts produced by `n` consecutive granted
acquires starting from `a` active runs: `[a+1, a+2, …, a+n]`. -/
def countUp (a : Nat) : Nat → List Nat
  | 0 => []
  | n + 1 => (a + 1) :: countUp (a + 1) n

/-! ## Phase state machine (spec-modelled)

`handleNextPhase` (`src/unnamed/part_003` lines 149–158) and
`updateTaskPhase` (`src/frontend/src/services/api.ts` lines 95–111) only
POST `/tasks/{id}/transition?target_phase=...`; the backend endpoint that
decides the transition is not under `src/`, so the machine is modelled from
the spec (§4.6). -/

inductive Phase where
  | collecting
  | editing_plan
  | designing
  | completed
deriving DecidableEq, Repr

structure TaskState where
  phase : Phase
  planValidated : Bool
deriving DecidableEq, Repr

inductive PhaseError where
  | invalidPhaseTransition
deriving DecidableEq, Repr

/-- Modelled from the spec: the admitted edges of §4.6 — the forward chain
collecting → editing_plan → designing → completed plus the two backward
edges editing_plan → collecting and designing → editing_plan. -/
def allowedEdge : Phase → Phase → Bool
  | .collecting, .editing_plan => true
  | .editing_plan, .designing => true
  | .designing, .completed => true
  | .editing_plan, .collecting => true
  | .designing, .editing_plan => true
  | _, _ => false

/-- Modelled from the spec: the transition endpoint.  A request succeeds
exactly when its edge is admitted and, for a move into `designing`, a
validated Plan exists; otherwise it fails with `InvalidPhaseTransition` and
the task keeps its state.  Moving back to `collecting` discards the Plan. -/
def transition (t : TaskState) (target : Phase) : Except PhaseError TaskState :=
  if allowedEdge t.phase target ∧ (target = .designing → t.planValidated) then
    .ok { phase := target,
          planValidated := if target = .collecting then false else t.planValidated }
  else
    .error .invalidPhaseTransition

/-! ## Helper lemmas -/

/-- Counting a predicate and its negation over a list adds to its length. -/
lemma countP_add_countP_not (p : α → Bool) (l : List α) :
    l.countP p + l.countP (fun a => !(p a)) = l.length := by
  induction l with
  | nil => rfl
  | cons a t ih =>
    simp only [List.countP_cons, List.length_cons]
    cases h : p a <;> simp [h] <;> omega

/-- Under distinct `id`s, at most one slide matches a given id. -/
lemma countP_id_le_one (l : List Slide) (id : String)
    (h : (l.map Slide.id).Nodup) : l.countP (fun s => s.id == id) ≤ 1 := by
  have h1 : l.countP (fun s => s.id == id) = List.count id (l.map Slide.id) := by
    simp [List.count, List.countP_map]
    rfl
  rw [h1]
  exact List.nodup_iff_count_le_one.mp h id

/-! ## C2 — retry wrapper -/

/-- C2: evaluating `with_retry` at its default configuration on a callable
that fails deterministically on every attempt.  The wrapper makes exactly
`max_retries = 3` calls in total — i.e. 2 extra attempts beyond the first —
sleeping 1s and then 2s between them, and then propagates the error.  This
contradicts the claim (and the function's own docstring), which promise 3
extra attempts with delays 1s, 2s, 4s. -/
theorem c2_with_retry_default_two_extra_attempts :
    with_retry {} (fun _ => (Except.error "boom" : Except String String)) =
      ⟨some (.error "boom"), [1, 2], 3⟩ := by
  rfl

/-! ## C5 — role switch -/

/-- C5: `switch_to_architect` leaves the conversation history (the
transcript's turns) and the tool set untouched; only the system prompt (the
bound role) changes, to the architect prompt.  The embedding is a pure state
transformer — the source assigns one attribute and performs no tool or
network call. -/
theorem c5_switch_to_architect_preserves_turns (p : String) (a : Agent) :
    (switch_to_architect p a).chat_history = a.chat_history ∧
    (switch_to_architect p a).tool_definitions = a.tool_definitions ∧
    (switch_to_architect p a).system_prompt = build_architect_system_prompt p a :=
  ⟨rfl, rfl, rfl⟩

/-! ## C8 — `convertToDetailedSlide` -/

/-- C8: `convertToDetailedSlide` is total (it is a Lean function) and for
every input slide — string content, array content, or absent — and every
index, the result's content list has at least one item (the default item is
substituted when parsing yields none), and `id`/`title` fall back to
`slide_{index+1}` / `幻灯片 {index+1}` exactly when the input fields are
missing (empty). -/
theorem c8_convertToDetailedSlide_nonempty (slide : ApiSlide) (index : Nat) :
    1 ≤ (convertToDetailedSlide slide index).content.length ∧
    (convertToDetailedSlide slide index).id =
      (if slide.id = "" then "slide_" ++ toString (index + 1) else slide.id) ∧
    (convertToDetailedSlide slide index).title =
      (if slide.title = "" then "幻灯片 " ++ toString (index + 1) else slide.title) := by
  refine ⟨?_, ?_, ?_⟩
  · by_cases h : (contentItemsOf index slide.content).length > 0
    · have hc : (convertToDetailedSlide slide index).content =
          contentItemsOf index slide.content := by
        simp [convertToDetailedSlide, h]
      rw [hc]
      omega
    · simp [convertToDetailedSlide, h]
  · simp [convertToDetailedSlide, beq_iff_eq]
  · simp [convertToDetailedSlide, beq_iff_eq]

/-! ## C9 — `removeSlide` -/

/-- C9 counterexample: a presentation with two slides sharing the id `"a"`
has more than one slide, so the guard lets the filter run, and the filter
removes both — the result has zero slides, refuting "removeSlide preserves
the invariant that a presentation keeps at least one slide". -/
theorem c9_counterexample :
    (removeSlide "a"
      ⟨"t", [⟨"a", "", "", "content"⟩, ⟨"a", "", "", "content"⟩], ⟨"", ""⟩⟩).slides.length
      = 0 := by
  rfl

/-- C9 (amended): with at most one slide the call leaves the presentation
unchanged; otherwise it removes exactly the slides whose id equals the given
id and keeps every other slide (in particular an absent id changes nothing);
and when the slide ids are pairwise distinct — the intended situation — at
least one slide always remains. -/
theorem c9_removeSlide_characterization :
    (∀ (id : String) (p : Presentation), p.slides.length ≤ 1 → removeSlide id p = p) ∧
    (∀ (id : String) (p : Presentation), 2 ≤ p.slides.length →
      (removeSlide id p).slides = p.slides.filter (fun s => s.id != id)) ∧
    (∀ (id : String) (p : Presentation), id ∉ p.slides.map Slide.id → removeSlide id p = p) ∧
    (∀ (id : String) (p : Presentation), (p.slides.map Slide.id).Nodup →
      1 ≤ p.slides.length → 1 ≤ (removeSlide id p).slides.length) := by
  refine ⟨?_, ?_, ?_, ?_⟩
  · intro id p h
    simp [removeSlide, h]
  · intro id p h
    have h' : ¬ p.slides.length ≤ 1 := by omega
    simp [removeSlide, h']
  · intro id p h
    unfold removeSlide
    split
    · rfl
    · have hf : p.slides.filter (fun s => s.id != id) = p.slides := by
        refine List.filter_eq_self.mpr (fun s hs => ?_)
        simp only [bne_iff_ne, ne_eq, decide_eq_true_eq]
        intro hEq
        exact h (hEq ▸ List.mem_map_of_mem Slide.id hs)
      rw [hf]
  · intro id p hnd hlen
    by_cases h1 : p.slides.length ≤ 1
    · simpa [removeSlide, h1] using hlen
    · have hrw : (removeSlide id p).slides = p.slides.filter (fun s => s.id != id) := by
        simp [removeSlide, h1]
      rw [hrw]
      have hcount := countP_add_countP_not (fun s => s.id == id) p.slides
      have hle := countP_id_le_one p.slides id hnd
      have hfl : (p.slides.filter (fun s => s.id != id)).length =
          p.slides.countP (fun s => !(s.id == id)) := by
        rw [← List.countP_eq_length_filter]
        rfl
      omega

/-- C9 witness: the amended theorem applied at concrete inputs. -/
theorem c9_removeSlide_characterization_witness :
    removeSlide "z" ⟨"t", [⟨"a", "", "", "content"⟩, ⟨"b", "", "", "content"⟩], ⟨"", ""⟩⟩ =
      ⟨"t", [⟨"a", "", "", "content"⟩, ⟨"b", "", "", "content"⟩], ⟨"", ""⟩⟩ ∧
    1 ≤ (removeSlide "a"
      ⟨"t", [⟨"a", "", "", "content"⟩, ⟨"b", "", "", "content"⟩], ⟨"", ""⟩⟩).slides.length :=
  ⟨c9_removeSlide_characterization.2.2.1 "z" _ (by decide),
   c9_removeSlide_characterization.2.2.2 "a" _ (by decide) (by decide)⟩

/-! ## C10 — generation-monitor filter -/

/-- C10: no slide surviving the `filtered` computation has status
`"failed"`, for every combination of filter flags and every query: the
allowed set is built only from `"queued"`, `"running"`, `"done"`. -/
theorem c10_filtered_excludes_failed (f : Filters) (query : String)
    (slides : List GenSlide) :
    ∀ s ∈ filteredSlides f query slides, s.status ≠ "failed" := by
  intro s hs hbad
  have hp := (List.mem_filter.mp hs).2
  have hc : (allowedStatuses f).contains s.status = true :=
    (Bool.and_eq_true _ _).mp hp |>.1
  have hmem : s.status ∈ allowedStatuses f := by
    simpa using hc
  rw [hbad] at hmem
  rcases f with ⟨fq, fr, fd⟩
  cases fq <;> cases fr <;> cases fd <;> simp [allowedStatuses] at hmem

/-- C10 witness: the theorem applied to a concrete slide surviving a
concrete filter. -/
theorem c10_filtered_excludes_failed_witness :
    (⟨"2", "b", "s", "done", 0⟩ : GenSlide).status ≠ "failed" :=
  c10_filtered_excludes_failed ⟨true, true, true⟩ "" [⟨"2", "b", "s", "done", 0⟩]
    ⟨"2", "b", "s", "done", 0⟩ (by decide)

/-! ## C7 — slide id stability -/

/-- Swapping two adjacent array slots, the way `moveSlide` does it
(`newSlides[i]` and `newSlides[i+1]` exchanged via two assignments on a
copy), permutes the list. -/
lemma set_set_adjacent_perm (l : List Slide) (i : Nat) (h : i + 1 < l.length) :
    ((l.set i (l.getD (i + 1) default)).set (i + 1) (l.getD i default)).Perm l := by
  induction l generalizing i with
  | nil => simp at h
  | cons a t ih =>
    cases i with
    | zero =>
      cases t with
      | nil => simp at h
      | cons b t' =>
        simp only [List.getD_cons_succ, List.getD_cons_zero, List.set_cons_zero,
          List.set_cons_succ]
        exact List.Perm.swap a b t'
    | succ j =>
      have h' : j + 1 < t.length := by simpa using h
      simp only [List.getD_cons_succ, List.set_cons_succ]
      exact List.Perm.cons a (ih j h')

/-- C7 (amended): reordering never changes any slide's id — `moveSlide`
returns a permutation of the very same slide records — and each add
operation appends exactly one new slide, leaving every existing slide and
its id unchanged.  (Freshness of the new id is *not* part of this theorem:
the counterexample shows `handleAddSlide` can re-assign the id of a
previously deleted slide.) -/
theorem c7_slide_ids :
    (∀ (p : Presentation) (i : Nat) (d : MoveDir), i < p.slides.length →
      ((moveSlide i d p).slides).Perm p.slides) ∧
    (∀ (now : Nat) (p : Presentation), (addSlide now p).slides =
      p.slides ++ [⟨"slide_" ++ toString now, "", "", "content"⟩]) ∧
    (∀ slides : List GenSlide, handleAddSlide slides =
      slides ++ [⟨nextIdOf slides, "新增页面 " ++ nextIdOf slides, "新建", "queued", 0⟩]) := by
  refine ⟨?_, fun _ _ => rfl, fun _ => rfl⟩
  intro p i d h
  cases d with
  | up =>
    cases i with
    | zero =>
      have hc : ¬ (0 ≤ ((0 : Nat) : Int) - 1 ∧
          ((0 : Nat) : Int) - 1 < (p.slides.length : Int)) := by
        intro hcon
        omega
      simp only [moveSlide, hc, if_false]
      exact List.Perm.refl _
    | succ j =>
      have hc : 0 ≤ ((Nat.succ j : Nat) : Int) - 1 ∧
          ((Nat.succ j : Nat) : Int) - 1 < (p.slides.length : Int) := by
        constructor <;> [omega; (push_cast; omega)]
      have ht : ((((Nat.succ j : Nat) : Int) - 1).toNat) = j := by omega
      simp only [moveSlide, hc, if_true, ht]
      rw [List.set_comm _ _ _ (by omega : j + 1 ≠ j)]
      exact set_set_adjacent_perm p.slides j (by omega)
  | down =>
    by_cases hc : ((i : Nat) : Int) + 1 < (p.slides.length : Int)
    · have hc' : 0 ≤ ((i : Nat) : Int) + 1 ∧
          ((i : Nat) : Int) + 1 < (p.slides.length : Int) := ⟨by omega, hc⟩
      have ht : ((((i : Nat) : Int) + 1).toNat) = i + 1 := by omega
      simp only [moveSlide, hc', if_true, ht]
      exact set_set_adjacent_perm p.slides i (by omega)
    · have hc' : ¬ (0 ≤ ((i : Nat) : Int) + 1 ∧
          ((i : Nat) : Int) + 1 < (p.slides.length : Int)) := by
        intro hcon
        exact hc hcon.2
      simp only [moveSlide, hc', if_false]
      exact List.Perm.refl _

/-- C7 witness: the amended theorem applied at a concrete two-slide
presentation, swapping the slides. -/
theorem c7_slide_ids_witness :
    ((moveSlide 0 .down
      ⟨"t", [⟨"1", "", "", "content"⟩, ⟨"2", "", "", "content"⟩], ⟨"", ""⟩⟩).slides).Perm
      [⟨"1", "", "", "content"⟩, ⟨"2", "", "", "content"⟩] :=
  c7_slide_ids.1 ⟨"t", [⟨"1", "", "", "content"⟩, ⟨"2", "", "", "content"⟩], ⟨"", ""⟩⟩
    0 .down (by decide)

/-- C7 counterexample: with slides `1,2,3`, deleting slide `3` and then
adding a slide assigns the new slide the id `"3"` — an id already used by a
slide of this presentation that was deleted, refuting "fresh id that has
never been used by any slide of that Plan before (including ids of
previously deleted slides)". -/
theorem c7_counterexample :
    ("3" ∈ ([⟨"1", "a", "s", "queued", 0⟩, ⟨"2", "b", "s", "queued", 0⟩,
        ⟨"3", "c", "s", "queued", 0⟩] : List GenSlide).map GenSlide.id) ∧
    ("3" ∉ (handleDelete "3" [⟨"1", "a", "s", "queued", 0⟩, ⟨"2", "b", "s", "queued", 0⟩,
        ⟨"3", "c", "s", "queued", 0⟩]).map GenSlide.id) ∧
    ("3" ∈ (handleAddSlide (handleDelete "3" [⟨"1", "a", "s", "queued", 0⟩,
        ⟨"2", "b", "s", "queued", 0⟩,
        ⟨"3", "c", "s", "queued", 0⟩])).map GenSlide.id) := by
  decide

/-! ## C1 — manifest expansion -/

/-- C1: for every Plan and every concurrency limit, `generateAll` creates
exactly `len(P.slides)` ManifestEntries, one per SlideSpec id, in Plan
order, each `pending` with zero attempts before any generation runs; the
final manifest keeps exactly those ids in the same order for any limit. -/
theorem c1_generateAll_manifest (limit : Nat) (succeeds : String → Bool) (plan : Plan) :
    (expandPlan plan).length = plan.slides.length ∧
    (expandPlan plan).map ManifestEntry.slideId = plan.slides.map SlideSpec.id ∧
    (∀ e ∈ expandPlan plan, e.status = .pending ∧ e.attempts = 0) ∧
    (generateAll limit succeeds plan).2.map ManifestEntry.slideId =
      plan.slides.map SlideSpec.id := by
  refine ⟨by simp [expandPlan], by simp [expandPlan], ?_, ?_⟩
  · intro e he
    simp only [expandPlan, List.mem_map] at he
    obtain ⟨s, _, rfl⟩ := he
    exact ⟨rfl, rfl⟩
  · simp only [generateAll, expandPlan, List.map_map]
    refine List.map_congr_left (fun s _ => ?_)
    simp only [Function.comp_apply, runEntry]
    split <;> rfl

/-- C1 witness: the theorem applied at a one-slide plan and its single
manifest entry. -/
theorem c1_generateAll_manifest_witness :
    ((⟨"s1", .pending, 0⟩ : ManifestEntry).status = .pending ∧
      (⟨"s1", .pending, 0⟩ : ManifestEntry).attempts = 0) :=
  (c1_generateAll_manifest 1 (fun _ => true) ⟨"p", [⟨"s1", "t", "b"⟩]⟩).2.2.1
    ⟨"s1", .pending, 0⟩ (by decide)

/-! ## C3 — total, non-raising summary -/

/-- C3: `generateAll` is total (it is a Lean function, never raising) and
returns a `{done, failed}` summary counting exactly the succeeding and
failing slides — one slide's failure never removes a sibling from the
summary — with `done + failed` covering every slide; in particular a 5-slide
plan whose third slide always fails yields `{done := 4, failed := 1}` for
any concurrency limit. -/
theorem c3_generateAll_summary (limit : Nat) (succeeds : String → Bool) (plan : Plan) :
    (generateAll limit succeeds plan).1.done =
      (plan.slides.filter (fun s => succeeds s.id)).length ∧
    (generateAll limit succeeds plan).1.failed =
      (plan.slides.filter (fun s => !succeeds s.id)).length ∧
    (generateAll limit succeeds plan).1.done + (generateAll limit succeeds plan).1.failed =
      plan.slides.length ∧
    (generateAll limit (fun id => id != "s3")
        ⟨"p", [⟨"s1", "", ""⟩, ⟨"s2", "", ""⟩, ⟨"s3", "", ""⟩,
          ⟨"s4", "", ""⟩, ⟨"s5", "", ""⟩]⟩).1 = ⟨4, 1⟩ := by
  have hd : (generateAll limit succeeds plan).1.done =
      plan.slides.countP (fun s => succeeds s.id) := by
    simp only [generateAll, expandPlan, List.map_map, List.countP_map]
    refine List.countP_congr (fun s _ => ?_)
    simp only [Function.comp_apply, runEntry]
    split <;> simp_all
  have hf : (generateAll limit succeeds plan).1.failed =
      plan.slides.countP (fun s => !succeeds s.id) := by
    simp only [generateAll, expandPlan, List.map_map, List.countP_map]
    refine List.countP_congr (fun s _ => ?_)
    simp only [Function.comp_apply, runEntry]
    split <;> simp_all
  have hsum := countP_add_countP_not (fun s => succeeds s.id) plan.slides
  refine ⟨?_, ?_, ?_, rfl⟩
  · rw [hd, List.countP_eq_length_filter]
  · rw [hf, List.countP_eq_length_filter]
  · rw [hd, hf]
    exact hsum

/-! ## C4 — admission gate -/

/-- Every active count along a trace admitted by a gate with positive limit
stays at or below the limit. -/
lemma gate_bounded_aux (limit : Nat) (hl : 1 ≤ limit) :
    ∀ (evs : List GateEvent) (active : Nat) (states : List Nat),
      active ≤ limit → gateStates limit active evs = some states →
      ∀ a ∈ states, a ≤ limit := by
  intro evs
  induction evs with
  | nil =>
    intro active states _ h a ha
    simp only [gateStates] at h
    cases h
    simp at ha
  | cons ev t ih =>
    intro active states hact h a ha
    simp only [gateStates] at h
    cases hstep : gateStep limit active ev with
    | none => rw [hstep] at h; cases h
    | some a' =>
      rw [hstep] at h
      simp only [Option.bind_some, Option.some_bind] at h
      cases hg : gateStates limit a' t with
      | none => rw [hg] at h; cases h
      | some l =>
        rw [hg] at h
        simp only [Option.map_some'] at h
        cases h
        have ha' : a' ≤ limit := by
          cases ev with
          | acquire =>
            simp only [gateStep] at hstep
            split at hstep
            · cases hstep
              rename_i hcond
              rcases hcond with h0 | hlt
              · omega
              · omega
            · cases hstep
          | release =>
            simp only [gateStep] at hstep
            cases hstep
            omega
        rcases List.mem_cons.mp ha with rfl | hmem
        · exact ha'
        · exact ih a' l ha' hg a hmem

/-- With limit 0 the gate grants every acquire: `n` consecutive acquires are
all admitted and drive the active count up to `n`. -/
lemma gate_unbounded_aux : ∀ (n active : Nat),
    gateStates 0 active (List.replicate n .acquire) = some (countUp active n) := by
  intro n
  induction n with
  | zero => intro active; rfl
  | succ m ih =>
    intro active
    simp only [List.replicate, gateStates, gateStep]
    rw [if_pos (Or.inl trivial)]
    simp only [Option.some_bind]
    rw [ih (active + 1)]
    rfl

/-- The final count `a + n` appears in `countUp a n` whenever `n ≥ 1`. -/
lemma mem_countUp : ∀ (n a : Nat), 1 ≤ n → a + n ∈ countUp a n := by
  intro n
  induction n with
  | zero => intro a h; omega
  | succ m ih =>
    intro a h
    rcases Nat.eq_zero_or_pos m with h0 | hm
    · subst h0
      simp [countUp]
    · have hrec := ih (a + 1) hm
      have hshift : (a + 1) + m = a + (m + 1) := by omega
      rw [hshift] at hrec
      exact List.mem_cons.mpr (Or.inr hrec)

/-- C4: for every limit `N ≥ 1`, along every trace the gate admits, the
number of simultaneously active designer runs never exceeds `N` (an acquire
at capacity is simply never granted); with limit 0 the gate is unbounded —
any number of simultaneous acquires is admitted and the active count reaches
`n`. -/
theorem c4_admission_gate :
    (∀ (limit : Nat) (evs : List GateEvent) (states : List Nat), 1 ≤ limit →
      gateStates limit 0 evs = some states → ∀ a ∈ states, a ≤ limit) ∧
    (∀ n : Nat, gateStates 0 0 (List.replicate n .acquire) = some (countUp 0 n)) ∧
    (∀ n : Nat, 1 ≤ n → n ∈ countUp 0 n) := by
  refine ⟨?_, ?_, ?_⟩
  · intro limit evs states hl h
    exact gate_bounded_aux limit hl evs 0 states (by omega) h
  · intro n
    exact gate_unbounded_aux n 0
  · intro n h
    simpa using mem_countUp n 0 h

/-- C4 witness: the theorem applied at limit 2 to the concrete admitted
trace acquire-acquire-release-acquire (whose active counts are 1,2,1,2),
and the unbounded conjuncts at `n = 3`. -/
theorem c4_admission_gate_witness :
    (2 : Nat) ≤ 2 ∧
    gateStates 0 0 (List.replicate 3 .acquire) = some (countUp 0 3) ∧
    (3 : Nat) ∈ countUp 0 3 :=
  ⟨c4_admission_gate.1 2 [.acquire, .acquire, .release, .acquire] [1, 2, 1, 2]
      (by decide) (by decide) 2 (by decide),
   c4_admission_gate.2.1 3,
   c4_admission_gate.2.2 3 (by decide)⟩

/-! ## C6 — phase state machine -/

/-- C6: a transition request succeeds exactly when its edge is one of the
five admitted edges (the forward chain plus the two backward edges) and, for
entry into `designing`, a validated Plan exists; entering `designing`
without one fails with `InvalidPhaseTransition` (the task state is not
replaced, so the phase is unchanged); and a successful transition moves the
phase to exactly the requested target. -/
theorem c6_phase_machine (t : TaskState) (target : Phase) :
    ((transition t target).isOk = true ↔
      ((t.phase, target) ∈
        [(Phase.collecting, Phase.editing_plan), (Phase.editing_plan, Phase.designing),
         (Phase.designing, Phase.completed), (Phase.editing_plan, Phase.collecting),
         (Phase.designing, Phase.editing_plan)] ∧
        (target = Phase.designing → t.planValidated = true))) ∧
    (t.planValidated = false →
      transition t Phase.designing = .error .invalidPhaseTransition) ∧
    (∀ t' : TaskState, transition t target = .ok t' → t'.phase = target) := by
  refine ⟨?_, ?_, ?_⟩
  · rcases t with ⟨ph, pv⟩
    cases ph <;> cases target <;> cases pv <;> decide
  · intro h
    unfold transition
    rw [if_neg]
    intro hcon
    have := hcon.2 rfl
    rw [h] at this
    cases this
  · intro t' h
    unfold transition at h
    split at h
    · cases h
      rfl
    · cases h

/-- C6 witness: trying to enter `designing` from `editing_plan` without a
validated Plan is rejected with `InvalidPhaseTransition`, and the legal edge
`editing_plan → designing` with a validated Plan lands on `designing`. -/
theorem c6_phase_machine_witness :
    transition ⟨.editing_plan, false⟩ .designing = .error .invalidPhaseTransition ∧
    (⟨.designing, true⟩ : TaskState).phase = .designing :=
  ⟨(c6_phase_machine ⟨.editing_plan, false⟩ .designing).2.1 rfl,
   (c6_phase_machine ⟨.editing_plan, true⟩ .designing).2.2 ⟨.designing, true⟩ rfl⟩

end PresentationAgent
